import Mathlib

/-!
Verification of the `hello_bevy` program (`src/main.rs`).

The program spawns three `Person`-marked entities with `Name` components at
startup, then every tick runs two chained `Update` systems:
`update_people` (renames the first Person named "Ziomek" to "Ziomek Ross")
followed by `greet_people` (ticks a repeating 2-second timer and, when it
just finished, prints one `Hello {name}!` line per Person with a Name).

Entities, components and the two systems are embedded directly from the
source.  The `Timer` and the scheduler are Bevy library code that is not
part of this repository, so they are modelled from the spec (§4.2, §4.3):
time is in integer nanoseconds (matching Rust's `Duration`;
`Timer::from_seconds(2.0)` is 2 000 000 000 ns).
-/

namespace HelloBevy

/-- An entity of the Component Store: it may carry the zero-size `Person`
marker and/or a `Name(String)` component.  Source: the `#[derive(Component)]
struct Person;` and `struct Name(String);` declarations in `src/main.rs`. -/
structure Entity where
  person : Bool
  name : Option String
deriving DecidableEq, Repr

/-- Modelled from the spec: Bevy's `Timer` in `TimerMode::Repeating`
(spec §4.2), which is library code not in this repository.  State is the
accumulated elapsed time and the target interval, in nanoseconds. -/
structure RTimer where
  elapsed : Nat
  interval : Nat
deriving DecidableEq, Repr

/-- Modelled from the spec: `tick(delta)` for a Repeating timer adds the
delta to the accumulator; if the accumulator reaches the interval it wraps
(subtracting the interval as often as needed, i.e. keeping the remainder)
and `just_finished()` is true for that tick only (spec §4.2).  Returns the
new timer state and the `just_finished()` flag. -/
def RTimer.tick (t : RTimer) (d : Nat) : RTimer × Bool :=
  let e := t.elapsed + d
  if t.interval ≤ e then ({ t with elapsed := e % t.interval }, true)
  else ({ t with elapsed := e }, false)

/-- Flags reported by `just_finished()` over a sequence of tick deltas. -/
def RTimer.run (t : RTimer) : List Nat → List Bool
  | [] => []
  | d :: ds =>
    let p := t.tick d
    p.2 :: p.1.run ds

/-- The startup system `add_people`: spawns `(Person, Name)` for
"Ziomek", "Mateusz" and "Adam", in that order (`src/main.rs:33-37`). -/
def add_people : List Entity :=
  [⟨true, some "Ziomek"⟩, ⟨true, some "Mateusz"⟩, ⟨true, some "Adam"⟩]

/-- Whether an entity matches `update_people`'s rename condition: it is in
the query `Query<&mut Name, With<Person>>` and its name is exactly
"Ziomek". -/
def isZiomek (e : Entity) : Bool :=
  e.person && e.name == some "Ziomek"

/-- The `update_people` system (`src/main.rs:53-59`): iterate the Person
entities that have a Name in store order; on the first whose name equals
"Ziomek", overwrite it with "Ziomek Ross" and `break`. -/
def update_people : List Entity → List Entity
  | [] => []
  | e :: es =>
    if isZiomek e then { e with name := some "Ziomek Ross" } :: es
    else e :: update_people es

/-- The greeting line contributed by one entity in `greet_people`'s loop
over `Query<&Name, With<Person>>`: `println!("Hello {}!", name.0)`
(`src/main.rs:47-49`); `none` when the entity is not in that query. -/
def greetLine (e : Entity) : Option String :=
  Option.map (fun n => "Hello " ++ n ++ "!")
    (if e.person then e.name else none)

/-- The names held by Person-marked entities that have a Name component,
in store order. -/
def personNames (es : List Entity) : List String :=
  es.filterMap (fun e => if e.person then e.name else none)

/-- The `greet_people` system (`src/main.rs:39-51`): tick the `GreetTimer`
with this tick's delta; if it just finished, print one line per Person
entity with a Name.  Returns the updated timer and the printed lines. -/
def greet_people (t : RTimer) (d : Nat) (es : List Entity) :
    RTimer × List String :=
  let p := t.tick d
  (p.1, if p.2 then es.filterMap greetLine else [])

/-- The whole mutable state a tick acts on: the Component Store (entity
list) and the `GreetTimer` resource. -/
structure AppState where
  entities : List Entity
  timer : RTimer
deriving DecidableEq, Repr

/-- A system of the Update phase, as the scheduler invokes it: it receives
the state and this tick's delta and produces the new state and its output
lines. -/
def UpdateSystem := AppState → Nat → AppState × List String

/-- System wrapper for `update_people` in the Update phase: it only touches `Name`
components and prints nothing. -/
def update_people_sys : UpdateSystem := fun s _ =>
  ({ s with entities := update_people s.entities }, [])

/-- System wrapper for `greet_people` in the Update phase: it only touches the
`GreetTimer` resource. -/
def greet_people_sys : UpdateSystem := fun s d =>
  let p := greet_people s.timer d s.entities
  ({ s with timer := p.1 }, p.2)

/-- Modelled from the spec: the scheduler's execution of a chain of Update
systems (spec §4.3) — Bevy's scheduler is library code not in this
repository.  Each system completes fully, its writes committed to the
state, before the next begins; outputs are concatenated in order. -/
def runChain : List UpdateSystem → AppState → Nat → AppState × List String
  | [], s, _ => (s, [])
  | f :: fs, s, d =>
    let p := f s d
    let q := runChain fs p.1 d
    (q.1, p.2 ++ q.2)

/-- One Update tick of the app: the chain
`(update_people, greet_people).chain()` declared in `HelloPlugin::build`
(`src/main.rs:29`). -/
def appTick (s : AppState) (d : Nat) : AppState × List String :=
  runChain [update_people_sys, greet_people_sys] s d

/-- Drive the app for a sequence of tick deltas, collecting each tick's
output lines. -/
def appRun : AppState → List Nat → AppState × List (List String)
  | s, [] => (s, [])
  | s, d :: ds =>
    let p := appTick s d
    let q := appRun p.1 ds
    (q.1, p.2 :: q.2)

/-- The state after the Startup phase of `HelloPlugin`: `add_people` has
run once, and the `GreetTimer` resource was inserted fresh with the given
interval (`src/main.rs:27-28`). -/
def startupState (interval : Nat) : AppState :=
  ⟨add_people, ⟨0, interval⟩⟩

/-- Value of `Timer::from_seconds(2.0)` in nanoseconds. -/
def greetInterval : Nat := 2000000000

/-! ### Helper lemmas -/

/-- If no entity in the store matches the rename condition, `update_people`
leaves the store unchanged. -/
lemma update_people_of_no_match (es : List Entity)
    (h : ∀ e ∈ es, isZiomek e = false) : update_people es = es := by
  induction es with
  | nil => rfl
  | cons a es ih =>
    have ha : isZiomek a = false := h a (List.mem_cons_self a es)
    simp only [update_people, ha, Bool.false_eq_true, if_false]
    rw [ih fun e he => h e (List.mem_cons_of_mem a he)]

/-- Running `update_people` on a store whose first matching entity is `e`: every
entity before `e` and every entity after `e` is untouched, and `e` alone
is renamed (the loop breaks after the first match). -/
lemma update_people_split (l1 l2 : List Entity) (e : Entity)
    (h1 : ∀ x ∈ l1, isZiomek x = false) (he : isZiomek e = true) :
    update_people (l1 ++ e :: l2) =
      l1 ++ { e with name := some "Ziomek Ross" } :: l2 := by
  induction l1 with
  | nil => simp [update_people, he]
  | cons a l ih =>
    have ha : isZiomek a = false := h1 a (List.mem_cons_self a l)
    simp only [List.cons_append, update_people, ha, Bool.false_eq_true,
      if_false, List.append_eq]
    rw [ih fun x hx => h1 x (List.mem_cons_of_mem a hx)]

/-- The entity list after a tick is exactly `update_people` of the
pre-tick list (`greet_people` never writes components). -/
lemma appTick_entities (s : AppState) (d : Nat) :
    (appTick s d).1.entities = update_people s.entities := rfl

/-- The timer after a tick is the pre-tick timer ticked with this tick's
delta (`update_people` never touches the `GreetTimer` resource). -/
lemma appTick_timer (s : AppState) (d : Nat) :
    (appTick s d).1.timer = (s.timer.tick d).1 := rfl

/-- A tick's output is `greet_people`'s output, computed over the entity
list that `update_people` has already fully rewritten. -/
lemma appTick_out (s : AppState) (d : Nat) :
    (appTick s d).2 = (greet_people s.timer d (update_people s.entities)).2 := by
  simp [appTick, runChain, update_people_sys, greet_people_sys]

/-- The loop output of `greet_people` is one formatted line per Person-marked
entity that has a Name, in store order. -/
lemma filterMap_greetLine (es : List Entity) :
    es.filterMap greetLine =
      (personNames es).map (fun n => "Hello " ++ n ++ "!") := by
  simp only [personNames, List.map_filterMap]
  rfl

/-- Position of the line contributed by the entity `e` in the output of a
`filterMap` over `l1 ++ e :: l2`: it sits right after the lines of `l1`. -/
lemma filterMap_append_cons_get (f : Entity → Option String)
    (l1 l2 : List Entity) (e : Entity) (y : String) (hy : f e = some y) :
    ((l1 ++ e :: l2).filterMap f)[(l1.filterMap f).length]? = some y := by
  induction l1 with
  | nil => simp [List.filterMap_cons, hy]
  | cons a l ih =>
    cases ha : f a with
    | none => simpa [List.filterMap_cons, ha] using ih
    | some b => simpa [List.filterMap_cons, ha] using ih

/-! ### Claim theorems -/

/-- C1: from the startup state (three Person entities "Ziomek",
"Mateusz", "Adam"; repeating timer of interval 2.0 s) driving two ticks
with deltas 1.0 s each emits no output on tick 1 — the rename to
"Ziomek Ross" having already happened on tick 1 — and exactly the lines
"Hello Ziomek Ross!", "Hello Mateusz!", "Hello Adam!" on tick 2. -/
theorem c1_end_to_end_scenario :
    appRun (startupState greetInterval) [1000000000, 1000000000] =
      (⟨[⟨true, some "Ziomek Ross"⟩, ⟨true, some "Mateusz"⟩,
         ⟨true, some "Adam"⟩], ⟨0, greetInterval⟩⟩,
       [[], ["Hello Ziomek Ross!", "Hello Mateusz!", "Hello Adam!"]])
    ∧ (appTick (startupState greetInterval) 1000000000).1.entities =
      [⟨true, some "Ziomek Ross"⟩, ⟨true, some "Mateusz"⟩,
       ⟨true, some "Adam"⟩] := by
  exact ⟨by decide, by decide⟩

/-- C3: the chain `(update_people, greet_people).chain()` runs in the
declared total order each tick: the entity list handed to `greet_people`
is `update_people`'s fully committed result, the final state is exactly
that list with the ticked timer, and the tick's output is computed from
the post-mutation list. -/
theorem c3_chain_total_order (s : AppState) (d : Nat) :
    (appTick s d).1.entities = update_people s.entities
    ∧ (appTick s d).1.timer = (s.timer.tick d).1
    ∧ (appTick s d).2 =
        (greet_people s.timer d (update_people s.entities)).2 :=
  ⟨appTick_entities s d, appTick_timer s d, appTick_out s d⟩

/-- C6: a fresh Repeating timer of interval `I`, ticked once with a delta
`d ≥ 2·I`, reports `just_finished()` on that call and keeps `d % I` as
the residual accumulated time. -/
theorem c6_single_large_delta (I d : Nat) (h : 2 * I ≤ d) :
    (RTimer.tick ⟨0, I⟩ d).2 = true
    ∧ (RTimer.tick ⟨0, I⟩ d).1.elapsed = d % I := by
  have hI : I ≤ d := by omega
  simp [RTimer.tick, hI]

/-- Witness for C6 at `I = 2`, `d = 5`. -/
theorem c6_witness :
    (RTimer.tick ⟨0, 2⟩ 5).2 = true
    ∧ (RTimer.tick ⟨0, 2⟩ 5).1.elapsed = 5 % 2 :=
  c6_single_large_delta 2 5 (by decide)

/-- C9: `greet_people` mutates only the `GreetTimer` resource — its query
is read-only (`Query<&Name, With<Person>>`), so whatever the tick's
delta, the resulting state is the input state with only the timer
replaced: every entity, Person marker and Name value is unchanged. -/
theorem c9_greet_frame (s : AppState) (d : Nat) :
    (greet_people_sys s d).1 = ⟨s.entities, (s.timer.tick d).1⟩ := rfl

/-- C4: output is emitted on a tick exactly when the timer just crossed
an interval boundary on that tick, and then it is exactly one line per
Person-marked entity with a Name, in store order, each formatted as
"Hello {name}!" with the entity's current (post-tick) name. -/
theorem c4_output_gating (s : AppState) (d : Nat) :
    (appTick s d).2 =
      if (s.timer.tick d).2 = true
      then (personNames (appTick s d).1.entities).map
          (fun n => "Hello " ++ n ++ "!")
      else [] := by
  rw [appTick_out, appTick_entities]
  by_cases hf : (s.timer.tick d).2 = true
  · simp [greet_people, hf, filterMap_greetLine]
  · simp [greet_people, hf]

/-- C5: on a single tick, `update_people` renames at most one entity — on
a store `l1 ++ e :: l2` where `e` is the first Person named "Ziomek", the
prefix `l1` and the whole suffix `l2` (including any later entity also
named "Ziomek") are returned unchanged, and only `e` is renamed. -/
theorem c5_first_match_only (l1 l2 : List Entity) (e : Entity)
    (h1 : ∀ x ∈ l1, isZiomek x = false) (he : isZiomek e = true) :
    update_people (l1 ++ e :: l2) =
      l1 ++ { e with name := some "Ziomek Ross" } :: l2 :=
  update_people_split l1 l2 e h1 he

/-- Witness for C5: with two entities named "Ziomek" behind a
non-matching one, only the first "Ziomek" is renamed. -/
theorem c5_witness :
    update_people
        [⟨true, some "Mateusz"⟩, ⟨true, some "Ziomek"⟩,
         ⟨true, some "Ziomek"⟩] =
      [⟨true, some "Mateusz"⟩, ⟨true, some "Ziomek Ross"⟩,
       ⟨true, some "Ziomek"⟩] :=
  c5_first_match_only [⟨true, some "Mateusz"⟩] [⟨true, some "Ziomek"⟩]
    ⟨true, some "Ziomek"⟩ (by decide) (by decide)

/-- C2: if the first Person named "Ziomek" is present before a tick, then
after the tick that entity's Name is "Ziomek Ross"; and if the timer also
crosses on that tick, the greeting line printed for that entity — the one
at its position in the output — is "Hello Ziomek Ross!", the
post-mutation value. -/
theorem c2_mutation_before_greeting (s : AppState) (d : Nat)
    (l1 l2 : List Entity) (e : Entity)
    (hs : s.entities = l1 ++ e :: l2)
    (h1 : ∀ x ∈ l1, isZiomek x = false)
    (he : isZiomek e = true) :
    (appTick s d).1.entities =
      l1 ++ (⟨true, some "Ziomek Ross"⟩ : Entity) :: l2
    ∧ ((s.timer.tick d).2 = true →
        (appTick s d).2[(l1.filterMap greetLine).length]? =
          some "Hello Ziomek Ross!") := by
  have hperson : e.person = true := by
    have h := he
    simp only [isZiomek, Bool.and_eq_true] at h
    exact h.1
  have hren : ({ e with name := some "Ziomek Ross" } : Entity) =
      ⟨true, some "Ziomek Ross"⟩ := by
    cases e
    simp_all
  have hupd : update_people s.entities =
      l1 ++ (⟨true, some "Ziomek Ross"⟩ : Entity) :: l2 := by
    rw [hs, update_people_split l1 l2 e h1 he, hren]
  refine ⟨by rw [appTick_entities, hupd], fun hf => ?_⟩
  rw [appTick_out]
  simp only [greet_people, hf, if_true]
  rw [hupd]
  exact filterMap_append_cons_get greetLine l1 l2 _ _ rfl

/-- Witness for C2: the startup store with a first-tick delta of 2.0 s,
so the rename and the timer crossing happen on the same tick. -/
theorem c2_witness :
    (appTick ⟨add_people, ⟨0, greetInterval⟩⟩ greetInterval).1.entities =
      [] ++ (⟨true, some "Ziomek Ross"⟩ : Entity) ::
        [⟨true, some "Mateusz"⟩, ⟨true, some "Adam"⟩]
    ∧ (appTick ⟨add_people, ⟨0, greetInterval⟩⟩
          greetInterval).2[(([] : List Entity).filterMap greetLine).length]? =
        some "Hello Ziomek Ross!" := by
  have h := c2_mutation_before_greeting ⟨add_people, ⟨0, greetInterval⟩⟩
    greetInterval [] [⟨true, some "Mateusz"⟩, ⟨true, some "Adam"⟩]
    ⟨true, some "Ziomek"⟩ rfl (by simp) (by decide)
  exact ⟨h.1, h.2 (by decide)⟩

/-- A timer never reports `just_finished()` while the accumulated time
stays strictly below the interval. -/
lemma rtimer_run_no_finish (ds : List Nat) (t : RTimer)
    (h : t.elapsed + ds.sum < t.interval) :
    (t.run ds).count true = 0 := by
  induction ds generalizing t with
  | nil => rfl
  | cons d ds ih =>
    simp only [List.sum_cons] at h
    have hlt : ¬ t.interval ≤ t.elapsed + d := by omega
    simp only [RTimer.run, RTimer.tick, hlt, if_false]
    simp only [List.count_cons, beq_iff_eq, Bool.false_eq_true, if_false,
      Nat.add_zero]
    exact ih { t with elapsed := t.elapsed + d } (by simp; omega)

/-- A timer whose accumulator is below the interval reports
`just_finished()` exactly once over any delta sequence whose total brings
the accumulator exactly to the interval. -/
lemma rtimer_run_once (ds : List Nat) (t : RTimer) (hI : 0 < t.interval)
    (hlt : t.elapsed < t.interval)
    (hsum : t.elapsed + ds.sum = t.interval) :
    (t.run ds).count true = 1 := by
  induction ds generalizing t with
  | nil => simp at hsum; omega
  | cons d ds ih =>
    simp only [List.sum_cons] at hsum
    by_cases hc : t.interval ≤ t.elapsed + d
    · have hd : t.elapsed + d = t.interval := by omega
      have hz : ds.sum = 0 := by omega
      simp only [RTimer.run, RTimer.tick, hc, if_true]
      simp only [List.count_cons, beq_self_eq_true, if_true]
      have h0 : (({ t with elapsed := (t.elapsed + d) % t.interval } :
          RTimer).run ds).count true = 0 := by
        apply rtimer_run_no_finish
        simp only [hz, Nat.add_zero]
        exact Nat.mod_lt _ hI
      omega
    · simp only [RTimer.run, RTimer.tick, hc, if_false]
      simp only [List.count_cons, beq_iff_eq, Bool.false_eq_true, if_false,
        Nat.add_zero]
      exact ih { t with elapsed := t.elapsed + d } (by simpa using hI)
        (by simp; omega) (by simp; omega)

/-- C7: from a fresh Repeating timer of positive interval `I`, any finite
sequence of non-negative deltas summing exactly to `I` makes
`just_finished()` true on exactly one tick of the sequence. -/
theorem c7_exactly_one_finish (I : Nat) (hI : 0 < I) (ds : List Nat)
    (hsum : ds.sum = I) :
    ((RTimer.mk 0 I).run ds).count true = 1 :=
  rtimer_run_once ds ⟨0, I⟩ hI hI (by simpa using hsum)

/-- Witness for C7 at `I = 2`, deltas `[1, 1]`. -/
theorem c7_witness : ((RTimer.mk 0 2).run [1, 1]).count true = 1 :=
  c7_exactly_one_finish 2 (by decide) [1, 1] (by decide)

/-- Renaming an entity's Name never changes which entities carry the
Person marker. -/
lemma update_people_map_person (es : List Entity) :
    (update_people es).map Entity.person = es.map Entity.person := by
  induction es with
  | nil => rfl
  | cons a es ih =>
    cases ha : isZiomek a with
    | true => simp [update_people, ha]
    | false =>
      simp only [update_people, ha, Bool.false_eq_true, if_false,
        List.map_cons]
      rw [ih]

/-- Driving any number of ticks never changes the Person markers: no
system spawns, despawns, or re-tags entities. -/
lemma appRun_map_person (ds : List Nat) (s : AppState) :
    ((appRun s ds).1.entities).map Entity.person =
      s.entities.map Entity.person := by
  induction ds generalizing s with
  | nil => rfl
  | cons d ds ih =>
    calc ((appRun s (d :: ds)).1.entities).map Entity.person
        = ((appRun (appTick s d).1 ds).1.entities).map Entity.person := rfl
      _ = ((appTick s d).1.entities).map Entity.person := ih _
      _ = s.entities.map Entity.person := by
          rw [appTick_entities, update_people_map_person]

/-- C8: `add_people` runs exactly once, in the Startup phase that
precedes every Update tick, so however many ticks are driven the store
always holds exactly the three Person-marked entities it spawned. -/
theorem c8_startup_before_updates (I : Nat) (ds : List Nat) :
    ((appRun (startupState I) ds).1.entities).map Entity.person =
      [true, true, true] := by
  rw [appRun_map_person]
  rfl

/-- Once no entity matches the rename condition, ticking leaves the
entity list completely unchanged, forever. -/
lemma appRun_entities_of_no_match (ds : List Nat) (s : AppState)
    (h : ∀ e ∈ s.entities, isZiomek e = false) :
    (appRun s ds).1.entities = s.entities := by
  induction ds generalizing s with
  | nil => rfl
  | cons d ds ih =>
    have h1 : (appTick s d).1.entities = s.entities := by
      rw [appTick_entities, update_people_of_no_match s.entities h]
    calc (appRun s (d :: ds)).1.entities
        = (appRun (appTick s d).1 ds).1.entities := rfl
      _ = (appTick s d).1.entities := ih _ (by rw [h1]; exact h)
      _ = s.entities := h1

/-- C10: the rename happens at most once per process lifetime — after the
first tick from the startup state no Person entity is named "Ziomek" any
more, and every later tick leaves the entity list exactly as the first
tick left it. -/
theorem c10_rename_once (I d1 : Nat) (ds : List Nat) :
    (appTick (startupState I) d1).1.entities.filter isZiomek = []
    ∧ (appRun (appTick (startupState I) d1).1 ds).1.entities =
        (appTick (startupState I) d1).1.entities := by
  have h1 : (appTick (startupState I) d1).1.entities =
      [⟨true, some "Ziomek Ross"⟩, ⟨true, some "Mateusz"⟩,
       ⟨true, some "Adam"⟩] := rfl
  constructor
  · rw [h1]
    rfl
  · apply appRun_entities_of_no_match
    rw [h1]
    decide

end HelloBevy
